import Mathlib

/-!
Verification of the S3 canary object transport (`canary/S3ObjectTransport.cpp`)
against its natural-language specification.

The C++ source is shallowly embedded: pure computations become Lean
functions, the stateful connection fabric becomes explicit state passing,
C++ `int` error codes become `Int`, machine counters become `Nat`
(the use counter is declared in a header that is not part of the sources;
the spec describes it as a monotonic counter), and strings become
`List Char`.  Callback-driven control flow is modelled by functions from
the outcome of each collaborator call (signer, connection manager, HTTP
stream) to the observable effects (callback invocations, requests issued).
-/

namespace S3Transport

/-- `TransfersPerAddress` constant from the anonymous namespace (line 37). -/
def TransfersPerAddress : Nat := 10

/-- `MaxStreams` constant from the anonymous namespace (line 36). -/
def MaxStreams : Nat := 500

/-- `S3GetObjectResponseStatus_PartialContent` constant (line 38). -/
def S3GetObjectResponseStatus_PartialContent : Int := 206

/-- `AWS_ERROR_SUCCESS`: the zero error code. -/
def AWS_ERROR_SUCCESS : Int := 0

/-- `AWS_ERROR_UNKNOWN`: the generic error the transport promotes failures to.
Its numeric value lives in aws-c-common; the code only relies on it being
non-zero, and we model it as `1`. -/
def AWS_ERROR_UNKNOWN : Int := 1

/-! ## Connection fabric: use counter and request placement (C1) -/

/-- State of the connection-manager use counter (`m_connManagersUseCount`).
The counter's C++ type is declared in the header, which is not among the
sources; the spec describes it as a monotonic counter, so we model it as a
`Nat`. -/
structure FabricState where
  useCount : Nat
deriving DecidableEq

/-- One `GetNextConnManager` index computation (line 155):
`((m_connManagersUseCount.fetch_add(1) + 1) / TransfersPerAddress) % m_connManagers.size()`.
`fetch_add` returns the previous value and bumps the counter. -/
def getNextIndex (numManagers : Nat) (s : FabricState) : Nat × FabricState :=
  (((s.useCount + 1) / TransfersPerAddress) % numManagers, ⟨s.useCount + 1⟩)

/-- The fabric state after `k` calls to `GetNextConnManager`, starting from a
freshly spawned fabric (`useCount = 0`). -/
def stateAfter (numManagers : Nat) : Nat → FabricState
  | 0 => ⟨0⟩
  | k + 1 => (getNextIndex numManagers (stateAfter numManagers k)).2

/-- Manager index returned by the `k`-th call (counted from 0) to
`GetNextConnManager` on a fabric with `numManagers` managers. -/
def kthCallIndex (numManagers k : Nat) : Nat :=
  (getNextIndex numManagers (stateAfter numManagers k)).1

/-! ## GetObject stream-completion error mapping (C6) -/

/-- Error computed by `GetObject`'s `onStreamComplete` handler
(lines 434-465): on transport success, a response status different from the
expected one (206 with a part number, 200 without) is promoted to
`AWS_ERROR_UNKNOWN`. -/
def getObjectStreamComplete (partNumber : Nat) (error status : Int) : Int :=
  let errorCode := error
  if errorCode = AWS_ERROR_SUCCESS then
    let successStatus : Int :=
      if partNumber > 0 then S3GetObjectResponseStatus_PartialContent else 200
    if status ≠ successStatus then AWS_ERROR_UNKNOWN else errorCode
  else errorCode

/-! ## Signed request pipeline: finished-callback multiplicity (C4) -/

/-- Outcome of one trip through `MakeSignedRequest` /
`MakeSignedRequest_SendRequest` (lines 206-292) for a single request:
the signer's error, whether the acquired connection was non-null and open,
the acquisition error, and whether `NewClientStream` returned a stream. -/
structure PipelineOutcome where
  signError : Int
  connOk : Bool
  connError : Int
  streamCreated : Bool
deriving DecidableEq

/-- Connection error after the promotion at lines 239-242: a null or closed
connection with a success code becomes `AWS_ERROR_UNKNOWN`. -/
def acquiredError (o : PipelineOutcome) : Int :=
  if o.connOk = false ∧ o.connError = AWS_ERROR_SUCCESS then AWS_ERROR_UNKNOWN
  else o.connError

/-- Number of times the operation's user `finished` callback runs from the
acquisition path.  Every operation (`PutObject` lines 399-405, `GetObject`
lines 470-475, `CreateMultipartUpload` lines 767-772,
`CompleteMultipartUpload` lines 850-855, `AbortMultipartUpload`
lines 907-912) passes `MakeSignedRequest` a callback that invokes `finished`
exactly when the reported error is non-zero; the signing failure path
(lines 226-233) and the acquisition path (lines 249-252) each invoke that
callback once. -/
def finishedFromAcquired (o : PipelineOutcome) : Nat :=
  if o.signError ≠ AWS_ERROR_SUCCESS then 1
  else if acquiredError o ≠ AWS_ERROR_SUCCESS then 1
  else 0

/-- Number of times the user `finished` callback runs from the stream path:
each operation's `onStreamComplete` invokes `finished` exactly once, and the
stream completes iff it was created and activated (lines 282-291).  When
`NewClientStream` returns null the code only logs (lines 284-287). -/
def finishedFromStream (o : PipelineOutcome) : Nat :=
  if o.signError = AWS_ERROR_SUCCESS ∧ acquiredError o = AWS_ERROR_SUCCESS ∧
      o.streamCreated then 1
  else 0

/-- Total number of invocations of the user-supplied `finished` callback for
one operation, over the whole pipeline. -/
def finishedCallCount (o : PipelineOutcome) : Nat :=
  finishedFromAcquired o + finishedFromStream o

/-! ## CreateMultipartUpload response parsing (C5) -/

/-- `String::find(pat)`: index of the first occurrence of `pat` in `s`,
scanning left to right; `none` models `String::npos`. -/
def findTag (pat : List Char) : List Char → Option Nat
  | [] => if pat.isEmpty then some 0 else none
  | c :: rest =>
    if pat.isPrefixOf (c :: rest) then some 0
    else (findTag pat rest).map (· + 1)

/-- `String::find(pat, start)`: first occurrence of `pat` at index `start`
or later. -/
def findTagFrom (pat s : List Char) (start : Nat) : Option Nat :=
  (findTag pat (s.drop start)).map (· + start)

/-- The `"<UploadId>"` opening tag (line 701). -/
def uploadIdOpenTag : List Char := "<UploadId>".toList

/-- The `"</UploadId>"` closing tag (line 702). -/
def uploadIdCloseTag : List Char := "</UploadId>".toList

/-- `CreateMultipartUpload`'s `onIncomingBody` handler (lines 698-727) run
on the response body (the body is modelled as delivered in one chunk, which
is what the substring scan assumes): locate the first `<UploadId>` tag, then
the next `</UploadId>` tag from that position, and extract the characters
between the end of the opening tag and the closing tag; on any miss the
upload-id buffer keeps its initial empty value. -/
def onIncomingBodyCreateMpu (body : List Char) : List Char :=
  match findTag uploadIdOpenTag body with
  | none => []
  | some openIdx =>
    match findTagFrom uploadIdCloseTag body openIdx with
    | none => []
    | some closeIdx =>
      let start := openIdx + uploadIdOpenTag.length
      (body.drop start).take (closeIdx - start)

/-- `CreateMultipartUpload`'s `onStreamComplete` handler (lines 728-760):
promote a success code with an empty upload id to `AWS_ERROR_UNKNOWN`, then
promote a success code with a status other than 200 to `AWS_ERROR_UNKNOWN`;
the callback always receives the (possibly empty) extracted id. -/
def createMpuStreamComplete (error status : Int) (uploadId : List Char) :
    Int × List Char :=
  let e1 :=
    if error = AWS_ERROR_SUCCESS ∧ uploadId = [] then AWS_ERROR_UNKNOWN
    else error
  let e2 := if e1 = AWS_ERROR_SUCCESS ∧ status ≠ 200 then AWS_ERROR_UNKNOWN else e1
  (e2, uploadId)

/-- Outcome `(error, upload id)` reported by `CreateMultipartUpload` for a
stream that completed with transport error `error`, HTTP status `status`
and response body `body`. -/
def createMultipartUploadResult (error status : Int) (body : List Char) :
    Int × List Char :=
  createMpuStreamComplete error status (onIncomingBodyCreateMpu body)

/-! ## CompleteMultipartUpload XML body (C7, C8) -/

/-- One decimal digit character. -/
def digitChar : Nat → Char
  | 0 => '0'
  | 1 => '1'
  | 2 => '2'
  | 3 => '3'
  | 4 => '4'
  | 5 => '5'
  | 6 => '6'
  | 7 => '7'
  | 8 => '8'
  | _ => '9'

/-- Decimal rendering with explicit recursion fuel (structural, so that it
evaluates inside the kernel); `fuel > n` always suffices since the value
shrinks by a factor of ten per step. -/
def natToDecAux : Nat → Nat → List Char
  | 0, _ => []
  | fuel + 1, n =>
    if n < 10 then [digitChar n]
    else natToDecAux fuel (n / 10) ++ [digitChar (n % 10)]

/-- Decimal rendering of a natural number, as `operator<<` on a
`StringStream` produces for the part number (line 798). -/
def natToDec (n : Nat) : List Char := natToDecAux (n + 1) n

/-- Literal emitted before each ETag (lines 796-797). -/
def partOpenLit : List Char := "   <Part>\n       <ETag>".toList

/-- Literal emitted between the ETag and the part number (lines 797-798). -/
def partMidLit : List Char := "</ETag>\n       <PartNumber>".toList

/-- Literal emitted after the part number (lines 798-799). -/
def partEndLit : List Char := "</PartNumber>\n   </Part>\n".toList

/-- The XML declaration line (line 788). -/
def xmlDeclLit : List Char := "<?xml version=\"1.0\" encoding=\"UTF-8\" ?>\n".toList

/-- The `CompleteMultipartUpload` opening element (line 789). -/
def xmlOpenLit : List Char :=
  "<CompleteMultipartUpload xmlns=\"http://s3.amazonaws.com/doc/2006-03-01/\">\n".toList

/-- The closing element (line 802). -/
def xmlCloseLit : List Char := "</CompleteMultipartUpload>".toList

/-- The `<Part>` block emitted for one ETag with 1-based part number
`partNumber` (lines 791-800). -/
def partBlock (etag : List Char) (partNumber : Nat) : List Char :=
  partOpenLit ++ etag ++ partMidLit ++ natToDec partNumber ++ partEndLit

/-- The blocks for a list of ETags, with part numbers counting up from
`k` (the loop at lines 791-800, where `partNumber = i + 1`). -/
def buildParts : List (List Char) → Nat → List Char
  | [], _ => []
  | e :: rest, k => partBlock e k ++ buildParts rest (k + 1)

/-- The full XML body assembled by `CompleteMultipartUpload`
(lines 787-802) from the ETag list. -/
def buildCompleteBody (etags : List (List Char)) : List Char :=
  xmlDeclLit ++ xmlOpenLit ++ buildParts etags 1 ++ xmlCloseLit

/-- The wire-format template of the spec, transcribed from its words: the
XML declaration and `CompleteMultipartUpload` element with the S3
namespace, then for each part index `i` the literal
`   <Part>\n       <ETag>{etag_i}</ETag>\n       <PartNumber>{i+1}</PartNumber>\n   </Part>\n`,
then `</CompleteMultipartUpload>`. -/
def specCompletePart (etag : List Char) (i : Nat) : List Char :=
  "   <Part>\n       <ETag>".toList ++ etag ++
    "</ETag>\n       <PartNumber>".toList ++ natToDec (i + 1) ++
    "</PartNumber>\n   </Part>\n".toList

/-- The spec template's part blocks for indices `i, i+1, ...`. -/
def specCompleteParts : List (List Char) → Nat → List Char
  | [], _ => []
  | e :: rest, i => specCompletePart e i ++ specCompleteParts rest (i + 1)

/-- The spec template's whole body. -/
def specCompleteBody (etags : List (List Char)) : List Char :=
  ("<?xml version=\"1.0\" encoding=\"UTF-8\" ?>\n" ++
    "<CompleteMultipartUpload xmlns=\"http://s3.amazonaws.com/doc/2006-03-01/\">\n").toList
    ++ specCompleteParts etags 0 ++ "</CompleteMultipartUpload>".toList

/-! ### A recursive-descent parser for the assembled body (C7)

The round-trip direction of the claim needs a parser; this one accepts
exactly the grammar of the assembled document (header, a sequence of
`<Part>` blocks whose `<ETag>` content is the character data up to the next
`<`, then the closing element) and rejects anything else. -/

/-- Strip an expected literal from the front of the input. -/
def stripLit (lit s : List Char) : Option (List Char) :=
  if lit.isPrefixOf s then some (s.drop lit.length) else none

/-- Character data: everything up to the next `<`. -/
def takeUntilLt : List Char → List Char × List Char
  | [] => ([], [])
  | c :: rest =>
    if c = '<' then ([], c :: rest)
    else
      let p := takeUntilLt rest
      (c :: p.1, p.2)

/-- Decimal digit test. -/
def isDecDigit (c : Char) : Bool := decide (48 ≤ c.toNat ∧ c.toNat ≤ 57)

/-- Longest digit run at the front of the input. -/
def takeDigits : List Char → List Char × List Char
  | [] => ([], [])
  | c :: rest =>
    if isDecDigit c then
      let p := takeDigits rest
      (c :: p.1, p.2)
    else ([], c :: rest)

/-- Decimal value of a digit run. -/
def decToNat (ds : List Char) : Nat :=
  ds.foldl (fun a c => a * 10 + (c.toNat - 48)) 0

/-- Parse the sequence of `<Part>` blocks followed by the closing element;
yields the `(etag, part number)` pairs in document order. `fuel` only pays
for termination. -/
def parsePartsLoop : Nat → List Char → Option (List (List Char × Nat))
  | 0, _ => none
  | fuel + 1, s =>
    match stripLit partOpenLit s with
    | some s1 =>
      let e := takeUntilLt s1
      (stripLit partMidLit e.2).bind fun s2 =>
        let d := takeDigits s2
        if d.1 = [] then none
        else
          (stripLit partEndLit d.2).bind fun s3 =>
            (parsePartsLoop fuel s3).map fun tail => (e.1, decToNat d.1) :: tail
    | none =>
      (stripLit xmlCloseLit s).bind fun rest =>
        if rest = [] then some [] else none

/-- Parse a whole CompleteMultipartUpload document. -/
def parseCompleteBody (s : List Char) : Option (List (List Char × Nat)) :=
  (stripLit xmlDeclLit s).bind fun s1 =>
    (stripLit xmlOpenLit s1).bind fun s2 => parsePartsLoop (s2.length + 1) s2

/-! ## PutObject ETag extraction and UploadPart completion (C8) -/

/-- The header scan installed by `PutObject` when `RetrieveETag` is set
(lines 343-366): every header whose name equals `"ETag"` byte-for-byte
(`aws_byte_cursor_eq_c_str`, case-sensitive) overwrites the initially empty
ETag buffer with its value. -/
def scanETagHeaders (headers : List (List Char × List Char)) : List Char :=
  headers.foldl (fun acc h => if h.1 = "ETag".toList then h.2 else acc) []

/-- Outcome `(error, etag)` delivered by `PutObject`'s `onStreamComplete`
(lines 367-394) for a stream that saw the given headers: the ETag buffer is
allocated only under the `RetrieveETag` flag, and a transport success with
a status other than 200 is promoted to `AWS_ERROR_UNKNOWN`. -/
def putObjectResult (retrieveETag : Bool) (headers : List (List Char × List Char))
    (error status : Int) : Int × Option (List Char) :=
  let etag : Option (List Char) :=
    if retrieveETag then some (scanETagHeaders headers) else none
  let e := if error = AWS_ERROR_SUCCESS ∧ status ≠ 200 then AWS_ERROR_UNKNOWN else error
  (e, etag)

/-- `PartFinishResponse` from the multipart transfer state header. -/
inductive PartFinishResponse
  | Done
  | Retry
deriving DecidableEq

/-- Modelled from the spec: `MultipartUploadState::IncNumPartsCompleted`
(declared in `MultipartTransferState.h`, which is not among the sources)
atomically increments `num_parts_completed` and reports whether this
increment made it reach `num_parts`. -/
def incNumPartsCompleted (numParts completedBefore : Nat) : Nat × Bool :=
  (completedBefore + 1, completedBefore + 1 == numParts)

/-- Observable effect of `UploadPart`'s completion callback
(lines 576-627) for one part, given the count of parts completed before it:
a null ETag pointer is promoted to `AWS_ERROR_UNKNOWN`; on success the ETag
is stored at the part index, the completed count is incremented (issuing
`CompleteMultipartUpload` exactly when it reaches `num_parts`) and the part
responds `Done`; on failure nothing is stored and the part responds
`Retry`. -/
structure UploadPartEffect where
  storedETag : Option (Nat × List Char)
  counted : Bool
  completeIssued : Bool
  response : PartFinishResponse
deriving DecidableEq

/-- The completion callback of `UploadPart` (lines 576-627). -/
def uploadPartOnFinished (numParts completedBefore partIndex : Nat)
    (errorCode : Int) (etag : Option (List Char)) : UploadPartEffect :=
  let errorCode := if etag = none then AWS_ERROR_UNKNOWN else errorCode
  if errorCode = AWS_ERROR_SUCCESS then
    let inc := incNumPartsCompleted numParts completedBefore
    { storedETag := some (partIndex, etag.getD []),
      counted := true,
      completeIssued := inc.2,
      response := PartFinishResponse.Done }
  else
    { storedETag := none, counted := false, completeIssued := false,
      response := PartFinishResponse.Retry }

/-! ## Multipart upload completion counting (C2) -/

/-- Per-upload counters: parts completed so far and the number of
`CompleteMultipartUpload` requests issued. -/
structure UploadRunState where
  numPartsCompleted : Nat
  completeCount : Nat
deriving DecidableEq

/-- Effect of one part's terminal outcome on the upload counters: a part
that finished with success goes through `IncNumPartsCompleted`, and the
increment that reaches `num_parts` issues `CompleteMultipartUpload`
(lines 583-597); a part that never succeeds contributes nothing. -/
def stepPartOutcome (numParts : Nat) (s : UploadRunState) (succeeded : Bool) :
    UploadRunState :=
  if succeeded then
    let inc := incNumPartsCompleted numParts s.numPartsCompleted
    { numPartsCompleted := inc.1,
      completeCount := if inc.2 then s.completeCount + 1 else s.completeCount }
  else s

/-- Upload counters after the `num_parts` parts report their terminal
outcomes (`true` = the part finished with success, `false` = it never
succeeded), in any order the outcome list presents them. -/
def runUpload (numParts : Nat) (outcomes : List Bool) : UploadRunState :=
  outcomes.foldl (stepPartOutcome numParts) ⟨0, 0⟩

/-! ## PutObjectMultipart finalization and AbortMultipartUpload (C3) -/

/-- Per-upload finalization state: the recorded upload id (empty until
`SetUploadId` runs), the latched terminal error, and whether the state was
pushed into the upload processor. -/
structure MpuState where
  uploadId : List Char
  finishedError : Option Int
  queued : Bool
deriving DecidableEq

/-- Modelled from the spec: `MultipartTransferState::SetFinished` (declared
in `MultipartTransferState.h`, not among the sources) latches
`finished_error` on first write; later writes are ignored, and the finished
callback runs for the first write only. -/
def setFinished (st : MpuState) (e : Int) : MpuState :=
  match st.finishedError with
  | some _ => st
  | none => { st with finishedError := some e }

/-- `CreateMultipartUpload`'s continuation inside `PutObjectMultipart`
(lines 522-531): a failure finalizes the state with that error (the upload
id is never recorded); a success records the upload id and pushes the state
into the upload processor. -/
def onCreateMpuFinished (st : MpuState) (errorCode : Int)
    (uploadId : List Char) : MpuState :=
  if errorCode ≠ AWS_ERROR_SUCCESS then setFinished st errorCode
  else { st with uploadId := uploadId, queued := true }

/-- Requests and callbacks observable from the finalization of one
multipart upload. -/
structure MpuFinalOutcome where
  abortUploadIds : List (List Char)
  finishedCalls : List (Int × Nat)
deriving DecidableEq

/-- The finished callback installed by `PutObjectMultipart`
(lines 507-518): a non-success terminal error issues
`AbortMultipartUpload` with whatever `GetUploadId()` returns, and the
abort's continuation ignores the abort's own error, reporting the original
error to the user; a success reports directly. -/
def onUploadFinished (numParts : Nat) (uploadId : List Char) (errorCode : Int)
    (abortResultError : Int) : MpuFinalOutcome :=
  if errorCode ≠ AWS_ERROR_SUCCESS then
    { abortUploadIds := [uploadId], finishedCalls := [(errorCode, numParts)] }
  else
    { abortUploadIds := [], finishedCalls := [(errorCode, numParts)] }

/-- One multipart upload's finalization, end to end: the create request
resolves with `(createError, createUploadId)`; if the state was queued, the
transfer later finalizes with `completeError` (the result
`CompleteMultipartUpload` reports, line 592-594); the latched error then
drives the finished callback, with `abortResultError` the error the abort
request itself would report. -/
def runMpuScenario (numParts : Nat) (createError : Int)
    (createUploadId : List Char) (completeError : Int)
    (abortResultError : Int) : MpuState × MpuFinalOutcome :=
  let st0 : MpuState := { uploadId := [], finishedError := none, queued := false }
  let st1 := onCreateMpuFinished st0 createError createUploadId
  let st2 := if st1.queued then setFinished st1 completeError else st1
  let outcome :=
    match st2.finishedError with
    | some e => onUploadFinished numParts st2.uploadId e abortResultError
    | none => { abortUploadIds := [], finishedCalls := [] }
  (st2, outcome)

/-! ## Address book, DNS warm-up and manager spawning (C9, C10) -/

/-- DNS record types the resolver reports. -/
inductive RecordType
  | A
  | AAAA
deriving DecidableEq

/-- One resolved host address. -/
structure HostAddress where
  address : List Char
  recordType : RecordType
deriving DecidableEq

/-- State of the transport's address book and connection fabric.  A
connection manager is represented by the address it is pinned to (its
`ConnectionOptions.HostName`, line 182). -/
structure TransportState where
  addressCache : List (List Char)
  connManagers : List (List Char)
  useCount : Nat
deriving DecidableEq

/-- `desiredNumberOfAddresses` computed by `WarmDNSCache` (lines 70-75):
`numTransfers / 10`, plus one when the division leaves a remainder. -/
def desiredAddressCount (numTransfers : Nat) : Nat :=
  numTransfers / TransfersPerAddress +
    (if numTransfers % TransfersPerAddress > 0 then 1 else 0)

/-- One resolve-callback body (lines 113-121): append every non-AAAA
address of the batch to the book. -/
def appendARecords (cache : List (List Char)) (batch : List HostAddress) :
    List (List Char) :=
  cache ++ (batch.filter fun a => a.recordType ≠ RecordType.AAAA).map
    HostAddress.address

/-- The fill loop of `WarmDNSCache` (lines 103-133): while the book holds
fewer than `desired` addresses, block on one more resolve and append its
batch.  The resolver is modelled as the list of batches successive resolves
deliver; exhausting it models the loop blocking forever (`none`). -/
def fillAddressCache (desired : Nat) :
    List (List HostAddress) → List (List Char) → Option (List (List Char))
  | [], cache => if desired ≤ cache.length then some cache else none
  | b :: rest, cache =>
    if desired ≤ cache.length then some cache
    else fillAddressCache desired rest (appendARecords cache b)

/-- `WarmDNSCache(numTransfers)` (lines 68-136): compute the target count,
clear the book (line 101) and run the fill loop. -/
def warmDNSCache (batches : List (List HostAddress)) (numTransfers : Nat)
    (s : TransportState) : Option TransportState :=
  (fillAddressCache (desiredAddressCount numTransfers) batches []).map
    fun cache => { s with addressCache := cache }

/-- `SeedAddressCache` (lines 159-164): clear the book and insert the one
given address. -/
def seedAddressCache (address : List Char) (s : TransportState) :
    TransportState :=
  { s with addressCache := [address] }

/-- `PurgeConnectionManagers` (lines 166-170). -/
def purgeConnectionManagers (s : TransportState) : TransportState :=
  { s with connManagers := [], useCount := 0 }

/-- `SpawnConnectionManagers` (lines 172-204): purge, then create one
manager per address in book order. -/
def spawnConnectionManagers (s : TransportState) : TransportState :=
  let s1 := purgeConnectionManagers s
  { s1 with connManagers := s1.addressCache }

/-- `GetNextConnManager` (lines 144-157) with its lazy initialization: when
no managers exist, warm the DNS cache for one transfer and spawn managers;
then return the manager at
`((use_count.fetch_add(1) + 1) / TransfersPerAddress) % |managers|`.
`none` models the warm-up blocking forever. -/
def getNextConnManager (batches : List (List HostAddress))
    (s : TransportState) : Option (List Char × TransportState) :=
  let init : Option TransportState :=
    if s.connManagers.length = 0 then
      (warmDNSCache batches 1 s).map spawnConnectionManagers
    else some s
  init.map fun s1 =>
    let index := ((s1.useCount + 1) / TransfersPerAddress) % s1.connManagers.length
    (s1.connManagers.getD index [], { s1 with useCount := s1.useCount + 1 })

/-- All A-record addresses a batch list can ever contribute. -/
def aRecordAddrs : List (List HostAddress) → List (List Char)
  | [] => []
  | b :: rest => appendARecords [] b ++ aRecordAddrs rest

/-- The `(etag, part number)` pairs for an ETag list with part numbers
counting up from `k`. -/
def pairsFrom : List (List Char) → Nat → List (List Char × Nat)
  | [], _ => []
  | e :: rest, k => (e, k) :: pairsFrom rest (k + 1)

end S3Transport

namespace S3Transport

/-! ## Theorems -/

theorem stateAfter_eq (m k : Nat) : stateAfter m k = ⟨k⟩ := by
  induction k with
  | zero => rfl
  | succ n ih => simp [stateAfter, getNextIndex, ih]

/-- C1: the `k`-th call to `GetNextConnManager` (counting from 0, with the
use counter starting at 0) returns manager index `((k+1)/10) % m`; calls in
the same division window return the same index; any ten consecutive calls
`10*j - 1 + i` (`j ≥ 1`, `i < 10`) are pinned to index `j % m`; and the
index advances by `+1 (mod m)` between consecutive windows. -/
theorem get_next_conn_manager_placement (m : Nat) (hm : 1 ≤ m) :
    (∀ k, kthCallIndex m k = ((k + 1) / TransfersPerAddress) % m) ∧
    (∀ k₁ k₂, (k₁ + 1) / TransfersPerAddress = (k₂ + 1) / TransfersPerAddress →
      kthCallIndex m k₁ = kthCallIndex m k₂) ∧
    (∀ j, 1 ≤ j → ∀ i, i < TransfersPerAddress →
      kthCallIndex m (TransfersPerAddress * j - 1 + i) = j % m) ∧
    (∀ j, kthCallIndex m (TransfersPerAddress * (j + 1)) =
      (kthCallIndex m (TransfersPerAddress * j) + 1) % m) := by
  have hidx : ∀ k, kthCallIndex m k = ((k + 1) / TransfersPerAddress) % m := by
    intro k
    simp [kthCallIndex, getNextIndex, stateAfter_eq]
  refine ⟨hidx, ?_, ?_, ?_⟩
  · intro k₁ k₂ h
    rw [hidx, hidx, h]
  · intro j hj i hi
    rw [hidx]
    have : TransfersPerAddress * j - 1 + i + 1 = TransfersPerAddress * j + i := by
      have : 1 ≤ TransfersPerAddress * j := by
        have : TransfersPerAddress * 1 ≤ TransfersPerAddress * j :=
          Nat.mul_le_mul_left _ hj
        omega
      omega
    rw [this]
    congr 1
    rw [Nat.mul_add_div (by norm_num [TransfersPerAddress]),
      Nat.div_eq_of_lt hi, Nat.add_zero]
  · intro j
    rw [hidx, hidx]
    have h₁ : (TransfersPerAddress * j + 1) / TransfersPerAddress = j := by
      rw [Nat.mul_add_div (by norm_num [TransfersPerAddress])]
      norm_num [TransfersPerAddress]
    have h₂ : (TransfersPerAddress * (j + 1) + 1) / TransfersPerAddress = j + 1 := by
      rw [Nat.mul_add_div (by norm_num [TransfersPerAddress])]
      norm_num [TransfersPerAddress]
    rw [h₁, h₂]
    exact (Nat.mod_add_mod j m 1).symm

/-- C1 witness: with 3 managers, the call with use count 9 lands on
manager `((9+1)/10) % 3 = 1`. -/
theorem get_next_conn_manager_placement_witness :
    kthCallIndex 3 9 = ((9 + 1) / TransfersPerAddress) % 3 :=
  (get_next_conn_manager_placement 3 (by norm_num)).1 9

/-- C6: on a `GetObject` completion with transport error 0, the reported
error is non-zero iff the HTTP status differs from the expected success
status (206 with a part number, 200 without), and a mismatch is promoted to
the generic unknown error. -/
theorem get_object_expected_status (partNumber : Nat) (error status : Int)
    (h : error = AWS_ERROR_SUCCESS) :
    (getObjectStreamComplete partNumber error status ≠ AWS_ERROR_SUCCESS ↔
      status ≠ (if partNumber > 0 then S3GetObjectResponseStatus_PartialContent
        else 200)) ∧
    (status ≠ (if partNumber > 0 then S3GetObjectResponseStatus_PartialContent
        else 200) →
      getObjectStreamComplete partNumber error status = AWS_ERROR_UNKNOWN) ∧
    (status = (if partNumber > 0 then S3GetObjectResponseStatus_PartialContent
        else 200) →
      getObjectStreamComplete partNumber error status = AWS_ERROR_SUCCESS) := by
  subst h
  unfold getObjectStreamComplete
  split_ifs <;>
    simp_all [AWS_ERROR_SUCCESS, AWS_ERROR_UNKNOWN,
      S3GetObjectResponseStatus_PartialContent]

/-- C6 witness: a GET for part 3 that comes back with status 200 instead of
206 is promoted to the unknown error. -/
theorem get_object_expected_status_witness :
    getObjectStreamComplete 3 0 200 = AWS_ERROR_UNKNOWN :=
  (get_object_expected_status 3 0 200 rfl).2.1 (by decide)

/-- C4 counterexample: a request whose signing and connection acquisition
both succeed but whose `NewClientStream` call returns null invokes the
user's `finished` callback zero times, not exactly once — the code only
logs the stream-creation failure. -/
theorem finished_callback_dropped_on_null_stream :
    finishedCallCount
      { signError := AWS_ERROR_SUCCESS, connOk := true,
        connError := AWS_ERROR_SUCCESS, streamCreated := false } = 0 := by
  decide

/-- C4 amended: the user-supplied finished callback is invoked exactly once
with the operation's terminal outcome across all outcomes of signing,
connection acquisition and stream completion, except that when client
stream creation fails after successful signing and acquisition the callback
is never invoked (zero times). -/
theorem finished_callback_multiplicity (o : PipelineOutcome) :
    finishedCallCount o =
      (if o.signError = AWS_ERROR_SUCCESS ∧ acquiredError o = AWS_ERROR_SUCCESS ∧
          o.streamCreated = false then 0 else 1) := by
  unfold finishedCallCount finishedFromAcquired finishedFromStream
  split_ifs <;> simp_all

theorem findTag_spec (pat : List Char) :
    ∀ (s : List Char) (i : Nat), findTag pat s = some i →
      pat.isPrefixOf (s.drop i) = true ∧
      ∀ k, k < i → pat.isPrefixOf (s.drop k) = false := by
  intro s
  induction s with
  | nil =>
    intro i h
    simp only [findTag] at h
    split_ifs at h with hp
    · cases h
      refine ⟨?_, by omega⟩
      simp [List.isEmpty_iff.mp hp]
  | cons c rest ih =>
    intro i h
    simp only [findTag] at h
    split_ifs at h with hp
    · cases h
      exact ⟨by simpa using hp, by omega⟩
    · rcases Option.map_eq_some'.mp h with ⟨i0, hi0, rfl⟩
      rcases ih i0 hi0 with ⟨h1, h2⟩
      refine ⟨by simpa using h1, ?_⟩
      intro k hk
      cases k with
      | zero => simpa using Bool.of_not_eq_true hp
      | succ k0 =>
        simp only [List.drop_succ_cons]
        exact h2 k0 (by omega)

theorem isPrefixOf_length_le {p l : List Char} (h : p.isPrefixOf l = true) :
    p.length ≤ l.length :=
  (List.isPrefixOf_iff_prefix.mp h).length_le

theorem findTag_lt_length {pat s : List Char} {i : Nat} (hpat : pat ≠ [])
    (h : findTag pat s = some i) : i < s.length := by
  have h1 := (findTag_spec pat s i h).1
  have h2 := isPrefixOf_length_le h1
  have h3 : 1 ≤ pat.length := by
    cases pat with
    | nil => exact absurd rfl hpat
    | cons a as => simp
  simp only [List.length_drop] at h2
  omega

/-- C5: `CreateMultipartUpload` reports success (error 0 together with the
extracted id) iff the transport succeeded, the HTTP status is 200 and the
body contained a first `<UploadId>` tag followed by a `</UploadId>` tag with
non-empty content between them; in every other case the reported error is
non-zero; the extracted id is the substring between the end of the first
opening tag and the next closing tag, where "first" means the substring
scan finds no earlier occurrence. -/
theorem create_multipart_upload_result_spec (error status : Int)
    (body : List Char) :
    ((createMultipartUploadResult error status body).1 = AWS_ERROR_SUCCESS ↔
      error = AWS_ERROR_SUCCESS ∧ status = 200 ∧
        (createMultipartUploadResult error status body).2 ≠ []) ∧
    (createMultipartUploadResult error status body).2 =
      onIncomingBodyCreateMpu body ∧
    ((createMultipartUploadResult error status body).2 ≠ [] ↔
      ∃ i j, findTag uploadIdOpenTag body = some i ∧
        findTagFrom uploadIdCloseTag body i = some j ∧
        i + uploadIdOpenTag.length < j) ∧
    (∀ i j, findTag uploadIdOpenTag body = some i →
      findTagFrom uploadIdCloseTag body i = some j →
      (createMultipartUploadResult error status body).2 =
        (body.drop (i + uploadIdOpenTag.length)).take
          (j - (i + uploadIdOpenTag.length))) ∧
    (∀ i, findTag uploadIdOpenTag body = some i →
      uploadIdOpenTag.isPrefixOf (body.drop i) = true ∧
      ∀ k, k < i → uploadIdOpenTag.isPrefixOf (body.drop k) = false) := by
  have hsnd : (createMultipartUploadResult error status body).2 =
      onIncomingBodyCreateMpu body := rfl
  have hiff : (createMultipartUploadResult error status body).1 =
      AWS_ERROR_SUCCESS ↔
      error = AWS_ERROR_SUCCESS ∧ status = 200 ∧
        (createMultipartUploadResult error status body).2 ≠ [] := by
    unfold createMultipartUploadResult createMpuStreamComplete
    simp only [AWS_ERROR_SUCCESS, AWS_ERROR_UNKNOWN]
    split_ifs <;> simp_all
  have hnonempty : (createMultipartUploadResult error status body).2 ≠ [] ↔
      ∃ i j, findTag uploadIdOpenTag body = some i ∧
        findTagFrom uploadIdCloseTag body i = some j ∧
        i + uploadIdOpenTag.length < j := by
    rw [hsnd]
    constructor
    · intro hne
      unfold onIncomingBodyCreateMpu at hne
      rcases hopen : findTag uploadIdOpenTag body with _ | i
      · simp only [hopen] at hne
        exact absurd rfl hne
      · simp only [hopen] at hne
        rcases hclose : findTagFrom uploadIdCloseTag body i with _ | j
        · simp only [hclose] at hne
          exact absurd rfl hne
        · simp only [hclose, ne_eq, List.take_eq_nil_iff, not_or] at hne
          refine ⟨i, j, rfl, hclose, ?_⟩
          omega
    · rintro ⟨i, j, hopen, hclose, hlt⟩
      unfold onIncomingBodyCreateMpu
      simp only [hopen, hclose]
      rcases Option.map_eq_some'.mp hclose with ⟨j0, hj0, hj⟩
      have hjlt : j < body.length := by
        have h1 := findTag_lt_length (by decide) hj0
        simp only [List.length_drop] at h1
        omega
      simp only [ne_eq, List.take_eq_nil_iff, not_or]
      constructor
      · omega
      · intro hd
        have := congrArg List.length hd
        simp only [List.length_drop, List.length_nil] at this
        omega
  refine ⟨hiff, hsnd, hnonempty, ?_, ?_⟩
  · intro i j hopen hclose
    rw [hsnd]
    unfold onIncomingBodyCreateMpu
    simp only [hopen, hclose]
  · intro i hopen
    exact findTag_spec uploadIdOpenTag body i hopen

theorem foldl_stepPartOutcome (n : Nat) :
    ∀ (outs : List Bool) (c cc : Nat),
      outs.foldl (stepPartOutcome n) ⟨c, cc⟩ =
        ⟨c + outs.count true,
          cc + (if c < n ∧ n ≤ c + outs.count true then 1 else 0)⟩ := by
  intro outs
  induction outs with
  | nil =>
    intro c cc
    simp only [List.foldl_nil, List.count_nil, Nat.add_zero]
    rw [if_neg (by omega), Nat.add_zero]
  | cons b rest ih =>
    intro c cc
    rw [List.foldl_cons]
    cases b with
    | false =>
      have hstep : stepPartOutcome n ⟨c, cc⟩ false = ⟨c, cc⟩ := rfl
      rw [hstep, ih c cc]
      simp [List.count_cons]
    | true =>
      have h2 : List.count true (true :: rest) = rest.count true + 1 := by
        simp [List.count_cons]
      by_cases hc : c + 1 = n
      · have hstep : stepPartOutcome n ⟨c, cc⟩ true = ⟨c + 1, cc + 1⟩ := by
          simp [stepPartOutcome, incNumPartsCompleted, hc]
        have hcond1 : ¬(c + 1 < n ∧ n ≤ c + 1 + rest.count true) := by omega
        have hcond2 : c < n ∧ n ≤ c + (rest.count true + 1) := by omega
        rw [hstep, ih (c + 1) (cc + 1), h2, if_neg hcond1, if_pos hcond2]
        congr 1
        omega
      · have hstep : stepPartOutcome n ⟨c, cc⟩ true = ⟨c + 1, cc⟩ := by
          simp [stepPartOutcome, incNumPartsCompleted, hc]
        rw [hstep, ih (c + 1) cc, h2]
        by_cases h3 : c + 1 < n ∧ n ≤ c + 1 + rest.count true
        · have hcond2 : c < n ∧ n ≤ c + (rest.count true + 1) := by omega
          rw [if_pos h3, if_pos hcond2]
          congr 1
          omega
        · have hcond3 : ¬(c < n ∧ n ≤ c + (rest.count true + 1)) := by omega
          rw [if_neg h3, if_neg hcond3]
          congr 1
          omega

/-- C2 counterexample: a multipart upload with `num_parts = 0` never issues
`CompleteMultipartUpload` although every one of its (zero) parts finished
with success, so the claimed iff fails at `n = 0` — the code only issues
the request from the increment that reaches `num_parts`, and with no parts
no increment ever happens. -/
theorem complete_once_iff_fails_at_zero_parts :
    ¬ ((runUpload 0 []).completeCount = 1 ↔
        ([] : List Bool).all (fun b => b) = true) := by
  decide

/-- C2 amended: for every multipart upload with `num_parts = n ≥ 1`,
`CompleteMultipartUpload` is issued exactly once iff every one of the `n`
parts finished with success: the completion count never exceeds one, the
increment that makes the completed count reach `n` is the one that issues
the request, and if any part never succeeds no request is issued. -/
theorem complete_once_iff_all_parts_succeed (n : Nat) (outcomes : List Bool)
    (hlen : outcomes.length = n) (hn : 1 ≤ n) :
    ((runUpload n outcomes).completeCount = 1 ↔
      outcomes.all (fun b => b) = true) ∧
    (runUpload n outcomes).completeCount ≤ 1 ∧
    ((∃ b ∈ outcomes, b = false) → (runUpload n outcomes).completeCount = 0) ∧
    (runUpload n outcomes).numPartsCompleted = outcomes.count true := by
  have hrun : runUpload n outcomes =
      ⟨outcomes.count true,
        if 0 < n ∧ n ≤ outcomes.count true then 1 else 0⟩ := by
    unfold runUpload
    rw [foldl_stepPartOutcome]
    simp
  have hcc : (runUpload n outcomes).completeCount =
      if 0 < n ∧ n ≤ outcomes.count true then 1 else 0 := by
    rw [hrun]
  have hnp : (runUpload n outcomes).numPartsCompleted = outcomes.count true := by
    rw [hrun]
  have hcount : outcomes.count true ≤ n := hlen ▸ List.count_le_length true outcomes
  have hall : outcomes.all (fun b => b) = true ↔ outcomes.count true = n := by
    rw [List.all_eq_true, ← hlen, List.count_eq_length]
    constructor
    · intro h b hb
      exact ((h b hb).symm : true = b)
    · intro h b hb
      exact ((h b hb).symm : b = true)
  refine ⟨?_, ?_, ?_, hnp⟩
  · rw [hcc, hall]
    constructor
    · intro h1
      by_contra hne
      rw [if_neg (by omega)] at h1
      exact absurd h1 (by omega)
    · intro h1
      rw [if_pos (by omega)]
  · rw [hcc]
    split_ifs <;> omega
  · rintro ⟨b, hb, rfl⟩
    have hlt : outcomes.count true < outcomes.length := by
      rcases Nat.lt_or_ge (outcomes.count true) outcomes.length with h | h
      · exact h
      · have heq : outcomes.count true = outcomes.length :=
          Nat.le_antisymm (List.count_le_length _ _) h
        have := List.count_eq_length.mp heq false hb
        exact absurd this.symm (by simp)
    rw [hcc, if_neg (by omega)]

/-- C2 witness: a two-part upload whose two parts both succeed issues
`CompleteMultipartUpload` exactly once. -/
theorem complete_once_iff_all_parts_succeed_witness :
    (runUpload 2 [true, true]).completeCount = 1 :=
  (complete_once_iff_all_parts_succeed 2 [true, true] rfl (by decide)).1.mpr
    (by decide)

/-- C3 counterexample: when `CreateMultipartUpload` fails, no upload id was
ever obtained (the state is never queued and its id is still empty), yet
the finalization path still issues exactly one `AbortMultipartUpload` —
with the empty upload id — contradicting "only if an upload_id was
successfully obtained". -/
theorem abort_issued_without_upload_id :
    (runMpuScenario 3 1 "U-1".toList 0 7).2.abortUploadIds = [[]] ∧
    (runMpuScenario 3 1 "U-1".toList 0 7).1.queued = false ∧
    (runMpuScenario 3 1 "U-1".toList 0 7).1.uploadId = [] := by
  decide

/-- C3 amended: `AbortMultipartUpload` is issued at most once, exactly when
the upload finalizes with a non-success error, whether or not an upload id
was obtained: when `CreateMultipartUpload` failed, the abort is issued with
the empty upload id, otherwise with the recorded id; the abort's own error
is swallowed — `on_finished` receives the original error (and `num_parts`)
regardless of the abort's result. -/
theorem abort_policy (numParts : Nat) (createError : Int)
    (createUploadId : List Char) (completeError abortResultError : Int) :
    (runMpuScenario numParts createError createUploadId completeError
      abortResultError).2.abortUploadIds.length ≤ 1 ∧
    ((runMpuScenario numParts createError createUploadId completeError
        abortResultError).2.abortUploadIds ≠ [] ↔
      ∃ e, (runMpuScenario numParts createError createUploadId completeError
          abortResultError).1.finishedError = some e ∧ e ≠ AWS_ERROR_SUCCESS) ∧
    (createError ≠ AWS_ERROR_SUCCESS →
      (runMpuScenario numParts createError createUploadId completeError
        abortResultError).2.abortUploadIds = [[]]) ∧
    (createError = AWS_ERROR_SUCCESS → completeError ≠ AWS_ERROR_SUCCESS →
      (runMpuScenario numParts createError createUploadId completeError
        abortResultError).2.abortUploadIds = [createUploadId]) ∧
    (∀ e, (runMpuScenario numParts createError createUploadId completeError
        abortResultError).1.finishedError = some e →
      (runMpuScenario numParts createError createUploadId completeError
        abortResultError).2.finishedCalls = [(e, numParts)]) ∧
    (runMpuScenario numParts createError createUploadId completeError
        abortResultError).2 =
      (runMpuScenario numParts createError createUploadId completeError 0).2 := by
  unfold runMpuScenario onCreateMpuFinished setFinished onUploadFinished
  by_cases h1 : createError = AWS_ERROR_SUCCESS <;>
    by_cases h2 : completeError = AWS_ERROR_SUCCESS <;>
    simp_all

/-- C3 witness: a queued upload that finalizes with error 5 issues exactly
one abort carrying the recorded upload id. -/
theorem abort_policy_witness :
    (runMpuScenario 3 0 "U-1".toList 5 9).2.abortUploadIds = ["U-1".toList] :=
  (abort_policy 3 0 "U-1".toList 5 9).2.2.2.1 rfl (by decide)

theorem scanETagHeaders_foldl_const (tag : List Char)
    (headers : List (List Char × List Char)) :
    ∀ acc, (∀ h ∈ headers, h.1 ≠ tag) →
      headers.foldl (fun acc h => if h.1 = tag then h.2 else acc) acc = acc := by
  induction headers with
  | nil => intro acc _; rfl
  | cons hd tl ih =>
    intro acc hnone
    rw [List.foldl_cons, if_neg (hnone hd (List.mem_cons_self hd tl))]
    exact ih acc fun h hh => hnone h (List.mem_cons_of_mem hd hh)

set_option maxRecDepth 20000 in
/-- C8: a part whose HTTP response completes with transport success and
status 200 but carries no header named exactly `"ETag"` (the scan is
byte-for-byte, hence case-sensitive) reports the empty string as its ETag;
`UploadPart` stores that empty string at the part index and counts the part
as successfully completed — it increments the completed count, issues
`CompleteMultipartUpload` exactly when that increment reaches `num_parts`,
and answers `Done` — and the CompleteMultipartUpload body built from such a
part contains an empty `<ETag></ETag>` element. -/
theorem upload_part_missing_etag_header (headers : List (List Char × List Char))
    (hnone : ∀ h ∈ headers, h.1 ≠ "ETag".toList)
    (numParts completedBefore partIndex : Nat) :
    putObjectResult true headers AWS_ERROR_SUCCESS 200 =
      (AWS_ERROR_SUCCESS, some []) ∧
    uploadPartOnFinished numParts completedBefore partIndex
        (putObjectResult true headers AWS_ERROR_SUCCESS 200).1
        (putObjectResult true headers AWS_ERROR_SUCCESS 200).2 =
      { storedETag := some (partIndex, []),
        counted := true,
        completeIssued := completedBefore + 1 == numParts,
        response := PartFinishResponse.Done } ∧
    buildCompleteBody [[]] =
      xmlDeclLit ++ xmlOpenLit ++
        "   <Part>\n       <ETag></ETag>\n       <PartNumber>1</PartNumber>\n   </Part>\n".toList
        ++ xmlCloseLit := by
  have hscan : scanETagHeaders headers = [] :=
    scanETagHeaders_foldl_const "ETag".toList headers [] hnone
  have hput : putObjectResult true headers AWS_ERROR_SUCCESS 200 =
      (AWS_ERROR_SUCCESS, some []) := by
    unfold putObjectResult
    rw [hscan]
    simp
  refine ⟨hput, ?_, by decide⟩
  rw [hput]
  unfold uploadPartOnFinished incNumPartsCompleted
  simp

/-- C8 witness: a response whose only header is a lowercase `etag` header
does not match the case-sensitive scan; the part still completes `Done`
with the empty ETag stored, and (with one of two parts previously
completed) this is the increment that issues CompleteMultipartUpload. -/
theorem upload_part_missing_etag_header_witness :
    uploadPartOnFinished 2 1 1
        (putObjectResult true [("etag".toList, "abc".toList)]
          AWS_ERROR_SUCCESS 200).1
        (putObjectResult true [("etag".toList, "abc".toList)]
          AWS_ERROR_SUCCESS 200).2 =
      { storedETag := some (1, []),
        counted := true,
        completeIssued := true,
        response := PartFinishResponse.Done } :=
  (upload_part_missing_etag_header [("etag".toList, "abc".toList)]
    (by decide) 2 1 1).2.1

theorem fillAddressCache_length (desired : Nat) :
    ∀ (batches : List (List HostAddress)) (cache out : List (List Char)),
      fillAddressCache desired batches cache = some out →
      desired ≤ out.length := by
  intro batches
  induction batches with
  | nil =>
    intro cache out h
    unfold fillAddressCache at h
    split_ifs at h with hd
    · cases h
      exact hd
  | cons b rest ih =>
    intro cache out h
    unfold fillAddressCache at h
    split_ifs at h with hd
    · cases h
      exact hd
    · exact ih _ _ h

theorem fillAddressCache_mem (desired : Nat) :
    ∀ (batches : List (List HostAddress)) (cache out : List (List Char)),
      fillAddressCache desired batches cache = some out →
      ∀ x ∈ out, x ∈ cache ∨ x ∈ aRecordAddrs batches := by
  intro batches
  induction batches with
  | nil =>
    intro cache out h x hx
    unfold fillAddressCache at h
    split_ifs at h
    · cases h
      exact Or.inl hx
  | cons b rest ih =>
    intro cache out h x hx
    unfold fillAddressCache at h
    split_ifs at h with hd
    · cases h
      exact Or.inl hx
    · rcases ih _ _ h x hx with hmem | hmem
      · unfold appendARecords at hmem
        rcases List.mem_append.mp hmem with hmem2 | hmem2
        · exact Or.inl hmem2
        · refine Or.inr ?_
          unfold aRecordAddrs appendARecords
          exact List.mem_append.mpr (Or.inl (by simpa using hmem2))
      · refine Or.inr ?_
        unfold aRecordAddrs
        exact List.mem_append.mpr (Or.inr hmem)

theorem getNextConnManager_of_no_managers (batches : List (List HostAddress))
    (s : TransportState) (h : s.connManagers = []) :
    getNextConnManager batches s =
      (fillAddressCache (desiredAddressCount 1) batches []).map fun cache =>
        (cache.getD 0 [], ⟨cache, cache, 1⟩) := by
  unfold getNextConnManager warmDNSCache spawnConnectionManagers
    purgeConnectionManagers
  rw [if_pos (by rw [h]; rfl)]
  cases hfc : fillAddressCache (desiredAddressCount 1) batches [] with
  | none => simp [hfc]
  | some cache =>
    simp only [hfc, Option.map_some']
    congr 1

/-- C10: `GetNextConnManager` never divides by zero: whenever the call
returns, the manager list at the index computation (it is the one carried
out in the returned state, the call only bumping the use counter) has at
least one element; `SpawnConnectionManagers` creates exactly one manager
per cached address, and `WarmDNSCache(1)` returns only when the address
book holds at least `desiredAddressCount 1 = 1` address. -/
theorem get_next_conn_manager_no_div_by_zero :
    (∀ (batches : List (List HostAddress)) (s : TransportState) r,
      getNextConnManager batches s = some r → 1 ≤ r.2.connManagers.length) ∧
    (∀ t, (spawnConnectionManagers t).connManagers.length =
      t.addressCache.length) ∧
    (∀ (batches : List (List HostAddress)) (s t : TransportState),
      warmDNSCache batches 1 s = some t → 1 ≤ t.addressCache.length) ∧
    desiredAddressCount 1 = 1 := by
  have hwarm : ∀ (batches : List (List HostAddress)) (s t : TransportState),
      warmDNSCache batches 1 s = some t → 1 ≤ t.addressCache.length := by
    intro batches s t h
    unfold warmDNSCache at h
    rcases Option.map_eq_some'.mp h with ⟨cache, hc, rfl⟩
    have hlen := fillAddressCache_length (desiredAddressCount 1) batches [] cache hc
    simpa [desiredAddressCount, TransfersPerAddress] using hlen
  refine ⟨?_, fun t => rfl, hwarm, by decide⟩
  intro batches s r h
  by_cases hlen : s.connManagers = []
  · rw [getNextConnManager_of_no_managers batches s hlen] at h
    rcases Option.map_eq_some'.mp h with ⟨cache, hc, rfl⟩
    have hlen2 := fillAddressCache_length (desiredAddressCount 1) batches [] cache hc
    simpa [desiredAddressCount, TransfersPerAddress] using hlen2
  · unfold getNextConnManager at h
    rw [if_neg (by simpa using fun h0 => hlen (List.length_eq_zero.mp h0))] at h
    rcases Option.map_eq_some'.mp (h : (some s).map _ = some r) with ⟨s1, hs1, rfl⟩
    cases hs1
    have hne : s.connManagers.length ≠ 0 :=
      fun h0 => hlen (List.length_eq_zero.mp h0)
    show 1 ≤ s.connManagers.length
    omega

/-- C10 witness: with an empty fabric and one resolver batch holding one
A record, the lazy-initialized call returns a state with one manager. -/
theorem get_next_conn_manager_no_div_by_zero_witness :
    1 ≤ (("10.0.0.1".toList,
        (⟨["10.0.0.1".toList], ["10.0.0.1".toList], 1⟩ : TransportState)) :
        List Char × TransportState).2.connManagers.length :=
  get_next_conn_manager_no_div_by_zero.1
    [[⟨"10.0.0.1".toList, RecordType.A⟩]] ⟨[], [], 0⟩ _ (by rfl)

/-- C9: when the address book was seeded via `SeedAddressCache` but no
managers exist, the first `GetNextConnManager` call behaves exactly as if
the book were empty — `WarmDNSCache(1)` clears the book and repopulates it
from the resolver before managers are spawned — so the resulting book is
exactly the resolver fill, and a seeded address the resolver does not
return is in neither the book nor the manager list, nor is the returned
manager pinned to it. -/
theorem seeded_address_discarded (seed : List Char) (s : TransportState)
    (hempty : s.connManagers = []) (batches : List (List HostAddress)) :
    getNextConnManager batches (seedAddressCache seed s) =
      getNextConnManager batches s ∧
    (∀ r, getNextConnManager batches (seedAddressCache seed s) = some r →
      fillAddressCache (desiredAddressCount 1) batches [] =
        some r.2.addressCache ∧
      r.2.connManagers = r.2.addressCache ∧
      (seed ∉ aRecordAddrs batches →
        seed ∉ r.2.addressCache ∧ seed ∉ r.2.connManagers ∧ r.1 ≠ seed)) := by
  have hseeded : (seedAddressCache seed s).connManagers = [] := hempty
  have hs := getNextConnManager_of_no_managers batches s hempty
  have hseed := getNextConnManager_of_no_managers batches
    (seedAddressCache seed s) hseeded
  refine ⟨by rw [hs, hseed], ?_⟩
  intro r h
  rw [hseed] at h
  rcases Option.map_eq_some'.mp h with ⟨cache, hc, rfl⟩
  refine ⟨hc, rfl, ?_⟩
  intro hnot
  have hsub := fillAddressCache_mem (desiredAddressCount 1) batches [] cache hc
  have hnotc : seed ∉ cache := by
    intro hmem
    rcases hsub seed hmem with h0 | h0
    · exact absurd h0 (List.not_mem_nil seed)
    · exact hnot h0
  have hlen := fillAddressCache_length (desiredAddressCount 1) batches [] cache hc
  have hpos : 0 < cache.length := by
    have : desiredAddressCount 1 = 1 := by decide
    omega
  have hget : cache.getD 0 [] ∈ cache := by
    cases cache with
    | nil => simp at hpos
    | cons a t => exact List.mem_cons_self a t
  exact ⟨hnotc, hnotc, fun he => hnotc (he ▸ hget)⟩

/-- C9 witness: a book seeded with `9.9.9.9` and no spawned managers; the
resolver returns only `10.0.0.1`, and after the lazily initializing call
the seeded address is gone from the book and from the managers. -/
theorem seeded_address_discarded_witness :
    "9.9.9.9".toList ∉
      (⟨["10.0.0.1".toList], ["10.0.0.1".toList], 1⟩ :
        TransportState).connManagers :=
  (((seeded_address_discarded "9.9.9.9".toList ⟨[], [], 0⟩ rfl
      [[⟨"10.0.0.1".toList, RecordType.A⟩]]).2
    ("10.0.0.1".toList, ⟨["10.0.0.1".toList], ["10.0.0.1".toList], 1⟩)
    (by rfl)).2.2 (by decide)).2.1

theorem stripLit_append (lit rest : List Char) :
    stripLit lit (lit ++ rest) = some rest := by
  unfold stripLit
  rw [if_pos (List.isPrefixOf_iff_prefix.mpr (List.prefix_append lit rest)),
    List.drop_left]

theorem takeUntilLt_append (e rest : List Char) (h : '<' ∉ e) :
    takeUntilLt (e ++ '<' :: rest) = (e, '<' :: rest) := by
  induction e with
  | nil => simp [takeUntilLt]
  | cons a as ih =>
    have ha : ¬(a = '<') := fun h0 => h (List.mem_cons.mpr (Or.inl h0.symm))
    have htail := ih fun hm => h (List.mem_cons_of_mem a hm)
    simp [takeUntilLt, ha, htail]

theorem isDecDigit_digitChar (d : Nat) (h : d < 10) :
    isDecDigit (digitChar d) = true := by
  interval_cases d <;> decide

theorem digitChar_val (d : Nat) (h : d < 10) : (digitChar d).toNat - 48 = d := by
  interval_cases d <;> decide

theorem natToDecAux_digits :
    ∀ (fuel n : Nat), n < fuel → ∀ c ∈ natToDecAux fuel n, isDecDigit c = true := by
  intro fuel
  induction fuel with
  | zero => intro n h; omega
  | succ f ih =>
    intro n h c hc
    unfold natToDecAux at hc
    split_ifs at hc with h10
    · rw [List.mem_singleton] at hc
      exact hc ▸ isDecDigit_digitChar n h10
    · rcases List.mem_append.mp hc with hm | hm
      · exact ih (n / 10) (by omega) c hm
      · rw [List.mem_singleton] at hm
        exact hm ▸ isDecDigit_digitChar (n % 10) (by omega)

theorem natToDecAux_ne_nil (fuel n : Nat) (h : n < fuel) :
    natToDecAux fuel n ≠ [] := by
  cases fuel with
  | zero => omega
  | succ f =>
    unfold natToDecAux
    split_ifs <;> simp

theorem decToNat_append_digit (xs : List Char) (c : Char) :
    decToNat (xs ++ [c]) = decToNat xs * 10 + (c.toNat - 48) := by
  simp [decToNat, List.foldl_append]

theorem decToNat_natToDecAux :
    ∀ (fuel n : Nat), n < fuel → decToNat (natToDecAux fuel n) = n := by
  intro fuel
  induction fuel with
  | zero => intro n h; omega
  | succ f ih =>
    intro n h
    unfold natToDecAux
    split_ifs with h10
    · have : decToNat [digitChar n] = (digitChar n).toNat - 48 := by
        simp [decToNat]
      rw [this, digitChar_val n h10]
    · rw [decToNat_append_digit, ih (n / 10) (by omega),
        digitChar_val (n % 10) (by omega)]
      omega

theorem decToNat_natToDec (n : Nat) : decToNat (natToDec n) = n :=
  decToNat_natToDecAux (n + 1) n (by omega)

theorem natToDec_digits (n : Nat) : ∀ c ∈ natToDec n, isDecDigit c = true :=
  natToDecAux_digits (n + 1) n (by omega)

theorem natToDec_ne_nil (n : Nat) : natToDec n ≠ [] :=
  natToDecAux_ne_nil (n + 1) n (by omega)

theorem takeDigits_append (ds : List Char) (hds : ∀ c ∈ ds, isDecDigit c = true)
    (c : Char) (hc : isDecDigit c = false) (rest : List Char) :
    takeDigits (ds ++ c :: rest) = (ds, c :: rest) := by
  induction ds with
  | nil => simp [takeDigits, hc]
  | cons a as ih =>
    have ha : isDecDigit a = true := hds a (List.mem_cons_self a as)
    have htail := ih fun x hx => hds x (List.mem_cons_of_mem a hx)
    simp [takeDigits, ha, htail]

theorem parsePartsLoop_build :
    ∀ (etags : List (List Char)) (k fuel : Nat), etags.length < fuel →
      (∀ e ∈ etags, '<' ∉ e) →
      parsePartsLoop fuel (buildParts etags k ++ xmlCloseLit) =
        some (pairsFrom etags k) := by
  intro etags
  induction etags with
  | nil =>
    intro k fuel hfuel _
    cases fuel with
    | zero => omega
    | succ f =>
      have h1 : stripLit partOpenLit xmlCloseLit = none := by decide
      have h2 : stripLit xmlCloseLit xmlCloseLit = some [] := by decide
      simp only [buildParts, List.nil_append, parsePartsLoop, h1, h2,
        Option.some_bind, if_pos rfl]
      rfl
  | cons e rest ih =>
    intro k fuel hfuel hlt
    cases fuel with
    | zero => omega
    | succ f =>
      have he : '<' ∉ e := hlt e (List.mem_cons_self e rest)
      have hrest : ∀ x ∈ rest, '<' ∉ x :=
        fun x hx => hlt x (List.mem_cons_of_mem e hx)
      have hmid : partMidLit = '<' :: "/ETag>\n       <PartNumber>".toList := rfl
      have hend : partEndLit = '<' :: "/PartNumber>\n   </Part>\n".toList := rfl
      have hshape : buildParts (e :: rest) k ++ xmlCloseLit =
          partOpenLit ++ (e ++ (partMidLit ++ (natToDec k ++
            (partEndLit ++ (buildParts rest (k + 1) ++ xmlCloseLit))))) := by
        simp [buildParts, partBlock, List.append_assoc]
      rw [hshape]
      simp only [parsePartsLoop, stripLit_append]
      have htu : takeUntilLt (e ++ (partMidLit ++ (natToDec k ++
          (partEndLit ++ (buildParts rest (k + 1) ++ xmlCloseLit))))) =
          (e, partMidLit ++ (natToDec k ++
            (partEndLit ++ (buildParts rest (k + 1) ++ xmlCloseLit)))) := by
        rw [hmid, List.cons_append]
        exact takeUntilLt_append e _ he
      rw [htu]
      simp only [stripLit_append, Option.some_bind]
      have htd : takeDigits (natToDec k ++
          (partEndLit ++ (buildParts rest (k + 1) ++ xmlCloseLit))) =
          (natToDec k,
            partEndLit ++ (buildParts rest (k + 1) ++ xmlCloseLit)) := by
        rw [hend, List.cons_append]
        exact takeDigits_append (natToDec k) (natToDec_digits k) '<'
          (by decide) _
      rw [htd]
      rw [if_neg (natToDec_ne_nil k)]
      simp only [stripLit_append, Option.some_bind]
      rw [ih (k + 1) f (by simpa using hfuel) hrest]
      simp [pairsFrom, decToNat_natToDec]

theorem partBlock_length_pos (e : List Char) (k : Nat) :
    1 ≤ (partBlock e k).length := by
  have h23 : partOpenLit.length = 23 := by decide
  simp [partBlock, List.length_append, h23]
  omega

theorem length_le_buildParts :
    ∀ (etags : List (List Char)) (k : Nat),
      etags.length ≤ (buildParts etags k).length := by
  intro etags
  induction etags with
  | nil => intro k; simp [buildParts]
  | cons e rest ih =>
    intro k
    have h1 := partBlock_length_pos e k
    have h2 := ih (k + 1)
    simp only [buildParts, List.length_append, List.length_cons]
    omega

theorem pairsFrom_zip :
    ∀ (etags : List (List Char)) (k : Nat),
      pairsFrom etags k = etags.zip (List.range' k etags.length) := by
  intro etags
  induction etags with
  | nil => intro k; rfl
  | cons e rest ih =>
    intro k
    simp [pairsFrom, List.range'_succ, List.zip_cons_cons, ih (k + 1)]

theorem specCompleteParts_eq_buildParts :
    ∀ (etags : List (List Char)) (i : Nat),
      specCompleteParts etags i = buildParts etags (i + 1) := by
  intro etags
  induction etags with
  | nil => intro i; rfl
  | cons e rest ih =>
    intro i
    show specCompletePart e i ++ specCompleteParts rest (i + 1) =
      partBlock e (i + 1) ++ buildParts rest (i + 1 + 1)
    rw [ih (i + 1)]
    rfl

set_option maxRecDepth 40000 in
/-- C7 counterexample: the code performs no XML escaping, so for the ETag
list `["</ETag>"]` the assembled body does not parse back to the input
pair `("</ETag>", 1)` — the premature closing tag truncates the element —
refuting the claim for arbitrary ETag lists. -/
theorem complete_body_round_trip_fails_unescaped :
    parseCompleteBody (buildCompleteBody ["</ETag>".toList]) ≠
      some [("</ETag>".toList, 1)] := by
  decide

set_option maxRecDepth 40000 in
/-- C7 amended: the XML body assembled by `CompleteMultipartUpload` always
equals the exact template of the spec's wire-format section, and for every
list of ETags none of which contains the character `<` (the well-formedness
condition unescaped XML character data needs), parsing the body yields
exactly the input `(etag, part_number)` pairs in ascending part-number
order with `part_number[i] = i + 1`. -/
theorem complete_body_template_and_round_trip (etags : List (List Char)) :
    buildCompleteBody etags = specCompleteBody etags ∧
    ((∀ e ∈ etags, '<' ∉ e) →
      parseCompleteBody (buildCompleteBody etags) =
        some (etags.zip (List.range' 1 etags.length))) := by
  constructor
  · unfold buildCompleteBody specCompleteBody
    rw [specCompleteParts_eq_buildParts]
    have hh : ("<?xml version=\"1.0\" encoding=\"UTF-8\" ?>\n" ++
        "<CompleteMultipartUpload xmlns=\"http://s3.amazonaws.com/doc/2006-03-01/\">\n").toList
        = xmlDeclLit ++ xmlOpenLit := by decide
    rw [hh]
    simp [List.append_assoc, xmlCloseLit]
  · intro hlt
    unfold parseCompleteBody buildCompleteBody
    rw [List.append_assoc, List.append_assoc]
    simp only [stripLit_append, Option.some_bind]
    rw [← pairsFrom_zip]
    refine parsePartsLoop_build etags 1 _ ?_ hlt
    have h1 := length_le_buildParts etags 1
    have h2 : (buildParts etags 1 ++ xmlCloseLit).length =
        (buildParts etags 1).length + xmlCloseLit.length := by
      simp [List.length_append]
    omega

set_option maxRecDepth 40000 in
/-- C7 witness: for the two ETags `e1`, `e2` the assembled body parses back
to `[(e1, 1), (e2, 2)]`. -/
theorem complete_body_template_and_round_trip_witness :
    parseCompleteBody (buildCompleteBody ["e1".toList, "e2".toList]) =
      some (["e1".toList, "e2".toList].zip
        (List.range' 1 ["e1".toList, "e2".toList].length)) :=
  (complete_body_template_and_round_trip ["e1".toList, "e2".toList]).2
    (by decide)

/-- C5 witness: for a body containing `<UploadId>U-42</UploadId>` delivered
with transport success and status 200, the operation reports error 0 with
id `U-42`; the substring-between-the-tags characterization evaluates
accordingly. -/
theorem create_multipart_upload_result_spec_witness :
    createMultipartUploadResult 0 200 "<foo><UploadId>U-42</UploadId></foo>".toList
      = (AWS_ERROR_SUCCESS, "U-42".toList) ∧
    (createMultipartUploadResult 0 200
      "<foo><UploadId>U-42</UploadId></foo>".toList).2 =
      ("<foo><UploadId>U-42</UploadId></foo>".toList.drop
        (5 + uploadIdOpenTag.length)).take (19 - (5 + uploadIdOpenTag.length)) := by
  constructor
  · decide
  · exact (create_multipart_upload_result_spec 0 200
      "<foo><UploadId>U-42</UploadId></foo>".toList).2.2.2.1 5 19
      (by decide) (by decide)

end S3Transport
